import Mathlib

/-
Shallow embedding of the squarehole router core: the route-matching and
dispatch engine of src/router.mts and the streaming suspense runtime of
src/runtime/suspense.tsx.  Promises that the code awaits inside the try
block of handle are modelled by the Outcome type (normal value, thrown
Response, other thrown value); the lazy text stream of a Renderable is
modelled as its list of chunks; the byte channel of the streaming pump is
modelled by the trace of operations the pump performs on its writer.
-/

namespace Squarehole

/-- Body of an HTTP response: empty (null body), a JSON text body produced
by Response.json, or a streamed body given by the list of delivered chunks. -/
inductive BodyModel where
  | empty
  | jsonText (s : String)
  | stream (chunks : List String)
deriving Repr, DecidableEq

/-- An HTTP Response value: status, ordered list of header entries
(Headers preserves insertion order and supports repeated names), body. -/
structure Resp where
  status : Nat
  headers : List (String × String)
  body : BodyModel
deriving Repr, DecidableEq

/-- Values a loader or action may return: undefined (fragment.mod.loader?.(ctx)
when the fragment has no loader), a string, a number, or a Response instance. -/
inductive JSValue where
  | undef
  | str (s : String)
  | num (n : Int)
  | resp (r : Resp)
deriving Repr, DecidableEq

/-- Outcome of an awaited computation inside the try block of handle:
a normal value, a thrown Response instance (caught by the
instanceof-Response arm of the catch clause), or any other thrown value
(caught by the fallthrough arm and turned into a 500). -/
inductive Outcome (α : Type) where
  | ok (a : α)
  | thrownResp (r : Resp)
  | thrownErr (msg : String)
deriving Repr, DecidableEq

/-- Sequencing of awaited steps: a thrown value propagates past the rest
of the try block to the catch clause. -/
def Outcome.bind {α β : Type} : Outcome α → (α → Outcome β) → Outcome β
  | .ok a, f => f a
  | .thrownResp r, _ => .thrownResp r
  | .thrownErr m, _ => .thrownErr m

/-- The parts of the incoming Request that handle reads: its method, its
url, and whether request.headers.has the fx-request marker header. -/
structure Req where
  method : String
  url : String
  hasFxRequest : Bool
deriving Repr, DecidableEq

/-- The ctx record built by handle: the request and the extracted path
parameters (the environment and execution context carry no data the
embedded code inspects). -/
structure Ctx where
  request : Req
  params : List (String × String)

/-- Result of invoking a component: an Html value (a chunk stream) or a
plain string, mirroring the isHtml check in the reduceRight of
routeResponse. -/
inductive Rendered where
  | html (chunks : List String)
  | str (s : String)

/-- The into coercion of node.mts restricted to component results: an Html
value keeps its chunks, a string becomes a one-chunk stream. -/
def into : Rendered → List String
  | .html cs => cs
  | .str s => [s]

/-- A route module: optional loader, action, component (the default
export) and headers function, per the mod type of router.mts.  Each
callable is modelled as a pure function into Outcome since the router
awaits it inside the try block.  A headers function may return a non-value
(modelled by none, skipped by the falsy check) or a list of entries whose
values may be null or undefined (modelled by Option String). -/
structure Mod where
  loader? : Option (Ctx → Outcome JSValue) := none
  action? : Option (Ctx → Outcome JSValue) := none
  default? : Option (JSValue → List String → Outcome Rendered) := none
  headers? : Option (Ctx → JSValue → Outcome (Option (List (String × Option String)))) := none

/-- A fragment: an id and its module. -/
structure Fragment where
  id : String
  mod : Mod

/-- One route table entry: the URLPattern (modelled by its exec function,
returning the pathname groups on a match) and the fragment chain. -/
structure RouteEntry where
  pattern : String → Option (List (String × String))
  fragments : List Fragment

/-- The matching loop at the top of handle: try each route in table order,
returning the first match's fragments and extracted groups. -/
def matchRoutes : List RouteEntry → String → Option (List Fragment × List (String × String))
  | [], _ => none
  | r :: rest, url =>
    match r.pattern url with
    | some groups => some (r.fragments, groups)
    | none => matchRoutes rest url

/-- Hexadecimal digit used by the JSON backslash-u escape of control
characters. -/
def hexDigit (n : Nat) : Char :=
  if n < 10 then Char.ofNat (48 + n) else Char.ofNat (87 + n)

/-- JSON escaping of one character of a string value, as JSON.stringify
performs it: quote, backslash and the named control escapes, a four-digit
escape for the remaining control characters, every other character kept. -/
def jsonEscapeChar (c : Char) : String :=
  if c = Char.ofNat 34 then "\\\""
  else if c = Char.ofNat 92 then "\\\\"
  else if c = Char.ofNat 8 then "\\b"
  else if c = Char.ofNat 9 then "\\t"
  else if c = Char.ofNat 10 then "\\n"
  else if c = Char.ofNat 12 then "\\f"
  else if c = Char.ofNat 13 then "\\r"
  else if c.toNat < 32 then
    "\\u00" ++ String.singleton (hexDigit (c.toNat / 16)) ++
      String.singleton (hexDigit (c.toNat % 16))
  else String.singleton c

/-- JSON string escaping JSON.stringify applies to a string value. -/
def jsonEscape (s : String) : String :=
  String.join (s.data.map jsonEscapeChar)

/-- JSON.stringify on the values a loader or action can return here:
undefined has no JSON serialization — stringify returns undefined, which
is what makes Response.json(undefined) throw; a string is quoted and
escaped; a number prints in decimal; a Response instance, a plain object
with no enumerable own properties, serializes to an empty object (an arm
unreachable from dataResponse, which returns Response values before
encoding). -/
def stringify : JSValue → Option String
  | .undef => none
  | .str s => some ("\"" ++ jsonEscape s ++ "\"")
  | .num n => some (toString n)
  | .resp _ => some "\x7b\x7d"

/-- The response Response.json builds when serialization succeeds: status
200 with a JSON content type and the serialized text as body. -/
def jsonOkResponse (s : String) : Resp :=
  { status := 200
    headers := [("Content-Type", "application/json")]
    body := .jsonText s }

/-- Response.json of the Fetch API: serialize the value with
JSON.stringify and wrap the text in a 200 application/json response; a
value that does not serialize (undefined) gives JSON.stringify no text to
return and makes Response.json throw a TypeError, which the catch clause
of handle will turn into a 500. -/
def jsonResponse (v : JSValue) : Outcome Resp :=
  match stringify v with
  | some s => .ok (jsonOkResponse s)
  | none => .thrownErr "TypeError: Response.json received undefined"

/-- dataResponse from router.mts: await the loader or action; if the value
is a Response instance return it verbatim, otherwise hand it to
Response.json. -/
def dataResponse (f : Ctx → Outcome JSValue) (ctx : Ctx) : Outcome Resp :=
  (f ctx).bind fun v =>
    match v with
    | .resp r => .ok r
    | other => jsonResponse other

/-- The Promise.all over fragment.mod.loader?.(ctx) in routeResponse: each
slot holds the fragment's loader value, or undefined when it has no
loader; the result array is index-aligned with the chain, and a thrown
value from any loader rejects the whole join. -/
def runLoaders (ctx : Ctx) : List Fragment → Outcome (List JSValue)
  | [] => .ok []
  | f :: rest =>
    let v : Outcome JSValue :=
      match f.mod.loader? with
      | none => .ok .undef
      | some l => l ctx
    v.bind fun a => (runLoaders ctx rest).bind fun vs => .ok (a :: vs)

/-- The inner for-of of mergeFragmentHeaders: append every entry whose
value is not null or undefined to the shared headers collection, in entry
order; Headers.append never replaces an existing value. -/
def appendEntries (headers : List (String × String))
    (entries : List (String × Option String)) : List (String × String) :=
  headers ++ entries.filterMap fun kv =>
    match kv.2 with
    | some v => some (kv.1, v)
    | none => none

/-- mergeFragmentHeaders from router.mts: walk the chain in order (the
fragment list zipped with the index-aligned loader results), skip
fragments without a headers function, await each headers function with
that fragment's own loader result, skip falsy returns, and append the
non-null entries to the one shared collection. -/
def mergeFragmentHeaders (headers : List (String × String)) (ctx : Ctx) :
    List (Fragment × JSValue) → Outcome (List (String × String))
  | [] => .ok headers
  | (f, d) :: rest =>
    match f.mod.headers? with
    | none => mergeFragmentHeaders headers ctx rest
    | some hf =>
      (hf ctx d).bind fun h =>
        match h with
        | none => mergeFragmentHeaders headers ctx rest
        | some entries => mergeFragmentHeaders (appendEntries headers entries) ctx rest

/-- The reduceRight of routeResponse: starting from into of the empty
string, fold the chain from the leaf outwards; a fragment with a component
invokes it with its own loader result and the accumulated children, a
fragment without one passes the children through; a non-Html result is
coerced with into. -/
def composeNode : List (Fragment × JSValue) → Outcome (List String)
  | [] => .ok [""]
  | (f, d) :: rest =>
    (composeNode rest).bind fun acc =>
      match f.mod.default? with
      | none => .ok acc
      | some comp => (comp d acc).bind fun res => .ok (into res)

/-- One result of reader.read() on the composed Renderable's stream: a
chunk, or the read rejecting because the underlying generator threw. -/
inductive ChunkRead where
  | chunk (s : String)
  | readError (msg : String)
deriving Repr, DecidableEq

/-- An operation the pump performs on the response channel's writer. -/
inductive ChanOp where
  | write (s : String)
  | close
  | abort
deriving Repr, DecidableEq

/-- The while loop of startStreaming: write each chunk in order; a read
returning done breaks, a rejected read throws out of the loop. -/
def pumpWrites : List ChunkRead → List ChanOp
  | [] => []
  | .chunk s :: rest => .write s :: pumpWrites rest
  | .readError _ :: _ => []

/-- startStreaming from router.mts, as the trace of writer operations it
performs: the try block first writes the doctype preamble, then pumps the
Renderable's chunks; the finally block closes the writer, on normal
completion and on a thrown read error alike.  No branch of the function
calls abort. -/
def startStreaming (reads : List ChunkRead) : List ChanOp :=
  (ChanOp.write "<!doctype html>" :: pumpWrites reads) ++ [ChanOp.close]

/-- Chunks actually delivered on the channel: the payloads of the write
operations of a trace. -/
def chanWrites (ops : List ChanOp) : List String :=
  ops.filterMap fun op =>
    match op with
    | .write s => some s
    | _ => none

/-- routeResponse from router.mts: await all loaders, merge fragment
headers onto the initial text/html content type, compose the node by
reduceRight, and return a 200 response whose streamed body carries what
the detached startStreaming pump writes to the channel. -/
def routeResponse (fragments : List Fragment) (ctx : Ctx) : Outcome Resp :=
  (runLoaders ctx fragments).bind fun loaders =>
    (mergeFragmentHeaders [("Content-Type", "text/html")] ctx (fragments.zip loaders)).bind
      fun headers =>
        (composeNode (fragments.zip loaders)).bind fun node =>
          .ok { status := 200
                headers := headers
                body := .stream (chanWrites (startStreaming (node.map ChunkRead.chunk))) }

/-- The 404 response new Response(null, status 404). -/
def Resp404 : Resp := { status := 404, headers := [], body := .empty }

/-- The 500 response new Response(null, status 500). -/
def Resp500 : Resp := { status := 500, headers := [], body := .empty }

/-- Body of the try block of handle, after matching and the fx-request
slice: read the leaf module off the end of the chain and dispatch.  The
if-chain of the source (GET with a component, then GET with a loader, then
non-GET with an action, then 404) is written here as nested matches with
the same decision table; a missing leaf (empty chain) fails every arm and
falls through to 404. -/
def attempt (fragments : List Fragment) (ctx : Ctx) : Outcome Resp :=
  match fragments.getLast? with
  | none => .ok Resp404
  | some lastFrag =>
    let leaf := lastFrag.mod
    if ctx.request.method = "GET" then
      match leaf.default? with
      | some _ => routeResponse fragments ctx
      | none =>
        match leaf.loader? with
        | some l => dataResponse l ctx
        | none => .ok Resp404
    else
      match leaf.action? with
      | some a => dataResponse a ctx
      | none => .ok Resp404

/-- handle from router.mts: first-match route lookup, 404 when nothing
matches, the fx-request slice dropping the outermost fragment, then the
try block; the catch clause returns a thrown Response verbatim and turns
any other thrown value into a 500. -/
def handle (routes : List RouteEntry) (req : Req) : Resp :=
  match matchRoutes routes req.url with
  | none => Resp404
  | some (frags, params) =>
    let fragments := if req.hasFxRequest then frags.drop 1 else frags
    let ctx : Ctx := { request := req, params := params }
    match attempt fragments ctx with
    | .ok r => r
    | .thrownResp r => r
    | .thrownErr _ => Resp500

/-
Embedding of src/runtime/suspense.tsx.  The module keeps one map,
const suspended = new Map(...), at module level, shared by every request
in the process.  An entry of that map is modelled by its key together with
the promise it holds, the promise itself modelled by its settling time and
its settled result (a resolved html string or a rejection).
-/

/-- Eventual fate of a registered content promise: it resolves with the
materialized markup string, or it rejects with an error. -/
inductive Settled where
  | resolved (html : String)
  | rejected (msg : String)
deriving Repr, DecidableEq

/-- One entry of the module-level suspended map: the unique key minted by
the Suspense component, and the registered promise, given by the time at
which it settles and the value or rejection it settles with. -/
structure SuspenseEntry where
  id : String
  time : Nat
  result : Settled
deriving Repr, DecidableEq

/-- Map.set with a freshly minted key: the new binding is appended after
the existing ones (Map iteration follows insertion order).  This is the
suspended.set call of the Suspense component. -/
def suspenseDeclare (suspended : List SuspenseEntry) (e : SuspenseEntry) :
    List SuspenseEntry :=
  suspended ++ [e]

/-- The fallback markup the Suspense component returns synchronously: the
wrapper element carrying the minted id around the fallback. -/
def suspenseFallback (tag id fallback : String) : String :=
  "<" ++ tag ++ " id=\"" ++ id ++ "\">" ++ fallback ++ "</" ++ tag ++ ">"

/-- The Suspense component: mint an id, register the content promise in
the shared suspended map, and return the fallback markup immediately. -/
def Suspense (tag fallback : String) (e : SuspenseEntry)
    (suspended : List SuspenseEntry) : String × List SuspenseEntry :=
  (suspenseFallback tag e.id fallback, suspenseDeclare suspended e)

/-- Promise.race over suspended.values(): the promise that settles first,
that is the entry of least settling time, ties broken by map insertion
order (race resolves with the earliest already-settled promise in
iteration order). -/
def race : List SuspenseEntry → Option SuspenseEntry
  | [] => none
  | e :: rest =>
    match race rest with
    | none => some e
    | some e2 => if e2.time < e.time then some e2 else some e

/-- Map.delete on the raced key: with the map's keys pairwise distinct,
removing every entry carrying the key removes exactly that binding. -/
def removeId (suspended : List SuspenseEntry) (id : String) : List SuspenseEntry :=
  suspended.filter fun e => e.id != id


/-- The while loop of the Resolve generator: while the suspended map is
nonempty, await Promise.race of its values, delete the raced key, and
yield the patch pair (the raced id and its resolved markup, standing for
the template element plus resolved-data marker the generator yields); a
rejected raced promise makes the await throw, ending the generator with
that error and emitting nothing further.  The result is the list of
emitted patches and the error the loop ended with, if any. -/
def drain (pending : List SuspenseEntry) : List (String × String) × Option String :=
  match hr : race pending with
  | none => ([], none)
  | some e =>
    match e.result with
    | .rejected msg => ([], some msg)
    | .resolved html =>
      let rest := drain (removeId pending e.id)
      ((e.id, html) :: rest.1, rest.2)
termination_by pending.length
decreasing_by
  have hmem : ∀ (l : List SuspenseEntry) (x : SuspenseEntry), race l = some x → x ∈ l := by
    intro l
    induction l with
    | nil => intro x h; cases h
    | cons a t ih =>
      intro x h
      cases hr2 : race t with
      | none =>
        simp only [race, hr2] at h
        cases h
        exact List.mem_cons_self a t
      | some e2 =>
        simp only [race, hr2] at h
        by_cases hlt : e2.time < a.time
        · rw [if_pos hlt] at h
          cases h
          exact List.mem_cons_of_mem a (ih _ hr2)
        · rw [if_neg hlt] at h
          cases h
          exact List.mem_cons_self a t
  have hshrink : ∀ (l : List SuspenseEntry) (x : SuspenseEntry), x ∈ l →
      (removeId l x.id).length < l.length := by
    intro l
    induction l with
    | nil => intro x hx; cases hx
    | cons a t ih =>
      intro x hx
      by_cases hax : a.id = x.id
      · have hstep : removeId (a :: t) x.id = removeId t x.id := by
          simp [removeId, List.filter_cons, hax]
        rw [hstep]
        exact Nat.lt_succ_of_le (List.length_filter_le _ t)
      · have hxt : x ∈ t := by
          cases hx with
          | head => exact absurd rfl hax
          | tail _ h2 => exact h2
        have hstep : removeId (a :: t) x.id = a :: removeId t x.id := by
          simp [removeId, List.filter_cons, hax]
        rw [hstep]
        exact Nat.succ_lt_succ (ih _ hxt)
  exact hshrink pending e (hmem pending e hr)

/-- Markup a settled promise resolved with; the rejected arm is never
reached where this is used. -/
def resolvedHtml (e : SuspenseEntry) : String :=
  match e.result with
  | .resolved html => html
  | .rejected msg => msg

/-- Header entries one fragment contributes during mergeFragmentHeaders:
nothing when it has no headers function or the call does not return a
usable value, otherwise the non-null entries of the returned collection. -/
def fragmentHeaderEntries (ctx : Ctx) (fd : Fragment × JSValue) : List (String × String) :=
  match fd.1.mod.headers? with
  | none => []
  | some hf =>
    match hf ctx fd.2 with
    | .ok none => []
    | .ok (some entries) =>
      entries.filterMap fun kv =>
        match kv.2 with
        | some v => some (kv.1, v)
        | none => none
    | .thrownResp _ => []
    | .thrownErr _ => []

/-- A fragment's headers call, if it has one, returns normally on this
request (does not throw). -/
def headersCallOk (ctx : Ctx) (fd : Fragment × JSValue) : Prop :=
  ∀ hf, fd.1.mod.headers? = some hf → ∃ h, hf ctx fd.2 = Outcome.ok h

/-
Concrete fixtures used by the witnesses below.
-/

/-- Example GET request to the site root. -/
def getRootReq : Req := { method := "GET", url := "https://example.com/", hasFxRequest := false }

/-- Example request context for the root request with no path parameters. -/
def demoCtx : Ctx := { request := getRootReq, params := [] }

/-- Module with just a component rendering a fixed heading. -/
def helloMod : Mod := { default? := some fun _ _ => Outcome.ok (Rendered.str "<h1>Hi</h1>") }

/-- Leaf fragment carrying helloMod. -/
def helloFragment : Fragment := { id := "hello", mod := helloMod }

/-- Route serving helloFragment at the site root. -/
def helloRoute : RouteEntry :=
  { pattern := fun u => if u = "https://example.com/" then some [] else none
    fragments := [helloFragment] }

/-- The document response the hello route streams. -/
def helloResp : Resp :=
  { status := 200
    headers := [("Content-Type", "text/html")]
    body := BodyModel.stream ["<!doctype html>", "<h1>Hi</h1>"] }

/-- A prebuilt 303 redirect response, as a loader would throw for a
login redirect. -/
def redirect303 : Resp := { status := 303, headers := [("Location", "/login")], body := .empty }

/-- Module whose loader throws the redirect as a control response while a
component is present. -/
def throwingMod : Mod :=
  { loader? := some fun _ => Outcome.thrownResp redirect303
    default? := some fun _ _ => Outcome.ok (Rendered.str "<h1>secret</h1>") }

/-- Route serving throwingMod. -/
def throwingRoute : RouteEntry :=
  { pattern := fun u => if u = "https://example.com/secret" then some [] else none
    fragments := [{ id := "secret", mod := throwingMod }] }

/-- GET request hitting the throwing route. -/
def secretReq : Req := { method := "GET", url := "https://example.com/secret", hasFxRequest := false }

/-- Route whose pattern matches the literal path /users/me. -/
def literalUsersRoute : RouteEntry :=
  { pattern := fun u => if u = "/users/me" then some [] else none
    fragments := [{ id := "users-me", mod := helloMod }] }

/-- Route standing for the parameter pattern /users/:id, capturing the id
segment for the demonstration paths. -/
def paramUsersRoute : RouteEntry :=
  { pattern := fun u =>
      if u = "/users/me" then some [("id", "me")]
      else if u = "/users/alice" then some [("id", "alice")] else none
    fragments := [{ id := "users-id", mod := helloMod }] }

/-- Module contributing one Set-Cookie header value a=1. -/
def cookieModA : Mod := { headers? := some fun _ _ => Outcome.ok (some [("Set-Cookie", some "a=1")]) }

/-- Module contributing one Set-Cookie header value b=2. -/
def cookieModB : Mod := { headers? := some fun _ _ => Outcome.ok (some [("Set-Cookie", some "b=2")]) }

/-- Two-fragment chain (zipped with loader results) where both fragments
emit the same multi-value header name. -/
def cookiePairs : List (Fragment × JSValue) :=
  [({ id := "layout", mod := cookieModA }, .undef),
   ({ id := "leaf", mod := cookieModB }, .undef)]

/-- Deferred subtree declared first but settling last, after 30ms. -/
def entrySlow : SuspenseEntry := { id := "suspense-slow", time := 30, result := .resolved "<p>slow</p>" }

/-- Deferred subtree settling first, after 10ms. -/
def entryFast : SuspenseEntry := { id := "suspense-fast", time := 10, result := .resolved "<p>fast</p>" }

/-- Deferred subtree settling second, after 20ms. -/
def entryMid : SuspenseEntry := { id := "suspense-mid", time := 20, result := .resolved "<p>mid</p>" }

/-- Route whose chain is only the document fragment, for the fx-request
single-fragment scenario. -/
def docOnlyRoute : RouteEntry :=
  { pattern := fun u => if u = "https://example.com/solo" then some [] else none
    fragments := [{ id := "doc", mod := helloMod }] }

/-- fx-request flagged request hitting the document-only route. -/
def soloFxReq : Req := { method := "GET", url := "https://example.com/solo", hasFxRequest := true }
/-- Entry declared by response A while rendering, left pending in the
shared module-level map. -/
def entryA : SuspenseEntry := { id := "suspense-a", time := 5, result := .resolved "<p>A</p>" }

/-- Deferred subtree whose content promise rejects at time 1. -/
def entryBad : SuspenseEntry := { id := "suspense-bad", time := 1, result := .rejected "boom" }

/-- Sibling deferred subtree that would resolve at time 2. -/
def entryGood : SuspenseEntry := { id := "suspense-good", time := 2, result := .resolved "<p>good</p>" }

/-- Module with only a loader returning a string value. -/
def loaderOnlyMod : Mod := { loader? := some fun _ => Outcome.ok (JSValue.str "hello") }

/-- Route serving loaderOnlyMod. -/
def apiRoute : RouteEntry :=
  { pattern := fun u => if u = "https://example.com/api" then some [] else none
    fragments := [{ id := "api", mod := loaderOnlyMod }] }

/-- GET request hitting the api route. -/
def apiReq : Req := { method := "GET", url := "https://example.com/api", hasFxRequest := false }

/-- Module whose loader returns undefined (a loader body with no return
value). -/
def undefLoaderMod : Mod := { loader? := some fun _ => Outcome.ok JSValue.undef }

/-- Route serving undefLoaderMod. -/
def undefRoute : RouteEntry :=
  { pattern := fun u => if u = "https://example.com/undef" then some [] else none
    fragments := [{ id := "undef-leaf", mod := undefLoaderMod }] }

/-- GET request hitting the undefined-loader route. -/
def undefReq : Req := { method := "GET", url := "https://example.com/undef", hasFxRequest := false }

/-
Supporting lemmas.
-/

theorem Outcome.bind_eq_ok {α β : Type} {x : Outcome α} {f : α → Outcome β} {b : β}
    (h : x.bind f = Outcome.ok b) : ∃ a, x = Outcome.ok a ∧ f a = Outcome.ok b := by
  cases x with
  | ok a => exact ⟨a, rfl, h⟩
  | thrownResp r => simp [Outcome.bind] at h
  | thrownErr m => simp [Outcome.bind] at h

theorem race_eq_none {l : List SuspenseEntry} (h : race l = none) : l = [] := by
  cases l with
  | nil => rfl
  | cons a t =>
    exfalso
    cases hr : race t with
    | none =>
      simp only [race, hr] at h
      exact Option.noConfusion h
    | some e2 =>
      simp only [race, hr] at h
      split at h <;> exact Option.noConfusion h

theorem race_mem : ∀ {l : List SuspenseEntry} {e : SuspenseEntry},
    race l = some e → e ∈ l := by
  intro l
  induction l with
  | nil => intro e h; cases h
  | cons a t ih =>
    intro e h
    cases hr : race t with
    | none =>
      simp only [race, hr] at h
      cases h
      exact List.mem_cons_self a t
    | some e2 =>
      simp only [race, hr] at h
      by_cases hlt : e2.time < a.time
      · rw [if_pos hlt] at h
        cases h
        exact List.mem_cons_of_mem a (ih hr)
      · rw [if_neg hlt] at h
        cases h
        exact List.mem_cons_self a t

theorem race_min : ∀ {l : List SuspenseEntry} {e : SuspenseEntry},
    race l = some e → ∀ x ∈ l, e.time ≤ x.time := by
  intro l
  induction l with
  | nil => intro e h; cases h
  | cons a t ih =>
    intro e h x hx
    cases hr : race t with
    | none =>
      simp only [race, hr] at h
      cases h
      have ht : t = [] := race_eq_none hr
      subst ht
      cases hx with
      | head => exact Nat.le_refl _
      | tail _ hx2 => cases hx2
    | some e2 =>
      simp only [race, hr] at h
      by_cases hlt : e2.time < a.time
      · rw [if_pos hlt] at h
        cases h
        cases hx with
        | head => exact Nat.le_of_lt hlt
        | tail _ hx2 => exact ih hr x hx2
      · rw [if_neg hlt] at h
        cases h
        cases hx with
        | head => exact Nat.le_refl _
        | tail _ hx2 => exact Nat.le_trans (Nat.le_of_not_lt hlt) (ih hr x hx2)

theorem removeId_length_lt {l : List SuspenseEntry} {e : SuspenseEntry}
    (h : e ∈ l) : (removeId l e.id).length < l.length := by
  induction l with
  | nil => cases h
  | cons a t ih =>
    by_cases hae : a.id = e.id
    · have hstep : removeId (a :: t) e.id = removeId t e.id := by
        simp [removeId, List.filter_cons, hae]
      rw [hstep]
      exact Nat.lt_succ_of_le (List.length_filter_le _ t)
    · have he : e ∈ t := by
        cases h with
        | head => exact absurd rfl hae
        | tail _ h2 => exact h2
      have hstep : removeId (a :: t) e.id = a :: removeId t e.id := by
        simp [removeId, List.filter_cons, hae]
      rw [hstep]
      exact Nat.succ_lt_succ (ih he)

theorem drain_race_none {pending : List SuspenseEntry} (h : race pending = none) :
    drain pending = ([], none) := by
  rw [drain]
  split
  · rfl
  · rename_i e hr
    rw [h] at hr
    cases hr

theorem drain_race_rejected {pending : List SuspenseEntry} {e : SuspenseEntry}
    {msg : String} (h : race pending = some e) (hres : e.result = .rejected msg) :
    drain pending = ([], some msg) := by
  rw [drain]
  split
  · rename_i hr
    rw [h] at hr
    cases hr
  · rename_i e2 hr
    rw [h] at hr
    cases hr
    rw [hres]

theorem drain_race_resolved {pending : List SuspenseEntry} {e : SuspenseEntry}
    {html : String} (h : race pending = some e) (hres : e.result = .resolved html) :
    drain pending = ((e.id, html) :: (drain (removeId pending e.id)).1,
      (drain (removeId pending e.id)).2) := by
  rw [drain]
  split
  · rename_i hr
    rw [h] at hr
    cases hr
  · rename_i e2 hr
    rw [h] at hr
    cases hr
    rw [hres]

theorem cons_removeId_perm : ∀ {l : List SuspenseEntry} {e : SuspenseEntry},
    (l.map SuspenseEntry.id).Nodup → e ∈ l → (e :: removeId l e.id).Perm l := by
  intro l
  induction l with
  | nil => intro e _ he; cases he
  | cons a t ih =>
    intro e hnd he
    rw [List.map_cons, List.nodup_cons] at hnd
    obtain ⟨hna, hndt⟩ := hnd
    by_cases hae : a = e
    · subst hae
      have hkeep : removeId (a :: t) a.id = removeId t a.id := by
        simp [removeId, List.filter_cons]
      have hall : removeId t a.id = t := by
        apply List.filter_eq_self.mpr
        intro x hx
        have hne : x.id ≠ a.id :=
          fun hxe => hna (hxe ▸ List.mem_map_of_mem SuspenseEntry.id hx)
        simp [hne]
      rw [hkeep, hall]
    · have het : e ∈ t := by
        cases he with
        | head => exact absurd rfl hae
        | tail _ h2 => exact h2
      have haid : a.id ≠ e.id := by
        intro hid
        exact hna (hid ▸ List.mem_map_of_mem SuspenseEntry.id het)
      have hstep : removeId (a :: t) e.id = a :: removeId t e.id := by
        simp [removeId, List.filter_cons, haid]
      rw [hstep]
      exact (List.Perm.swap a e _).trans ((ih hndt het).cons a)

/-- When every pending promise resolves, the Resolve drain loop emits one
patch per entry and nothing else, ends cleanly, and its emission order is
a permutation of the pending set sorted by settling time: whichever
promise settles first is served first, independent of declaration order. -/
theorem drain_resolved_spec (pending : List SuspenseEntry)
    (hall : ∀ e ∈ pending, e.result = Settled.resolved (resolvedHtml e))
    (hnd : (pending.map SuspenseEntry.id).Nodup) :
    ∃ order : List SuspenseEntry, order.Perm pending ∧
      (order.map SuspenseEntry.time).Sorted (· ≤ ·) ∧
      (drain pending).1 = order.map (fun e => (e.id, resolvedHtml e)) ∧
      (drain pending).2 = none := by
  cases hr : race pending with
  | none =>
    have hp : pending = [] := race_eq_none hr
    subst hp
    exact ⟨[], List.Perm.refl [], List.sorted_nil, by rw [drain_race_none hr]; rfl,
      by rw [drain_race_none hr]⟩
  | some e =>
    have hmem := race_mem hr
    have hres : e.result = Settled.resolved (resolvedHtml e) := hall e hmem
    have hlt : (removeId pending e.id).length < pending.length := removeId_length_lt hmem
    have hall2 : ∀ x ∈ removeId pending e.id, x.result = Settled.resolved (resolvedHtml x) :=
      fun x hx => hall x (List.mem_of_mem_filter hx)
    have hnd2 : ((removeId pending e.id).map SuspenseEntry.id).Nodup :=
      List.Nodup.sublist (List.Sublist.map _ (List.filter_sublist pending)) hnd
    obtain ⟨order, hperm, hsort, hp1, hp2⟩ :=
      drain_resolved_spec (removeId pending e.id) hall2 hnd2
    refine ⟨e :: order, ?_, ?_, ?_, ?_⟩
    · exact (hperm.cons e).trans (cons_removeId_perm hnd hmem)
    · rw [List.map_cons, List.sorted_cons]
      refine ⟨?_, hsort⟩
      intro b hb
      rw [List.mem_map] at hb
      obtain ⟨x, hx, rfl⟩ := hb
      exact race_min hr x (List.mem_of_mem_filter (hperm.subset hx))
    · rw [drain_race_resolved hr hres, hp1, List.map_cons]
    · rw [drain_race_resolved hr hres]
      exact hp2
termination_by pending.length
decreasing_by exact hlt

theorem pumpWrites_only_writes : ∀ (reads : List ChunkRead) (op : ChanOp),
    op ∈ pumpWrites reads → ∃ s, op = ChanOp.write s := by
  intro reads
  induction reads with
  | nil => intro op h; cases h
  | cons c rest ih =>
    intro op h
    cases c with
    | chunk s =>
      simp only [pumpWrites] at h
      cases h with
      | head => exact ⟨s, rfl⟩
      | tail _ h2 => exact ih op h2
    | readError m =>
      simp only [pumpWrites] at h
      cases h

/-- The merged headers extend the collection they started from: appends
never remove or replace what is already there. -/
theorem mergeFragmentHeaders_prefix :
    ∀ (pairs : List (Fragment × JSValue)) (init out : List (String × String)) (ctx : Ctx),
    mergeFragmentHeaders init ctx pairs = Outcome.ok out → ∃ extra, out = init ++ extra := by
  intro pairs
  induction pairs with
  | nil =>
    intro init out ctx h
    simp only [mergeFragmentHeaders] at h
    cases h
    exact ⟨[], (List.append_nil init).symm⟩
  | cons fd rest ih =>
    intro init out ctx h
    obtain ⟨f, d⟩ := fd
    cases hh : f.mod.headers? with
    | none =>
      simp only [mergeFragmentHeaders, hh] at h
      exact ih init out ctx h
    | some hf =>
      simp only [mergeFragmentHeaders, hh] at h
      cases hcall : hf ctx d with
      | ok hv =>
        rw [hcall] at h
        simp only [Outcome.bind] at h
        cases hv with
        | none => exact ih init out ctx h
        | some entries =>
          obtain ⟨extra, hextra⟩ := ih (appendEntries init entries) out ctx h
          refine ⟨(entries.filterMap fun kv =>
            match kv.2 with
            | some v => some (kv.1, v)
            | none => none) ++ extra, ?_⟩
          rw [hextra, appendEntries, List.append_assoc]
      | thrownResp r =>
        rw [hcall] at h
        simp only [Outcome.bind] at h
        exact Outcome.noConfusion h
      | thrownErr m =>
        rw [hcall] at h
        simp only [Outcome.bind] at h
        exact Outcome.noConfusion h

/-- Unfolding handle once on a matched request. -/
theorem handle_matched {routes : List RouteEntry} {req : Req} {frags : List Fragment}
    {params : List (String × String)}
    (hmatch : matchRoutes routes req.url = some (frags, params)) :
    handle routes req =
      match attempt (if req.hasFxRequest then frags.drop 1 else frags)
          { request := req, params := params } with
      | .ok r => r
      | .thrownResp r => r
      | .thrownErr _ => Resp500 := by
  unfold handle
  rw [hmatch]

/-- Unfolding attempt when the chain has a last fragment. -/
theorem attempt_leaf {fragments : List Fragment} {ctx : Ctx} {lastFrag : Fragment}
    (hleaf : fragments.getLast? = some lastFrag) :
    attempt fragments ctx =
      if ctx.request.method = "GET" then
        match lastFrag.mod.default? with
        | some _ => routeResponse fragments ctx
        | none =>
          match lastFrag.mod.loader? with
          | some l => dataResponse l ctx
          | none => .ok Resp404
      else
        match lastFrag.mod.action? with
        | some a => dataResponse a ctx
        | none => .ok Resp404 := by
  unfold attempt
  rw [hleaf]

/-- Anatomy of a successfully composed document response: status 200, the
text/html content type first in its headers, and a streamed body. -/
theorem routeResponse_ok_anatomy {fragments : List Fragment} {ctx : Ctx} {r : Resp}
    (h : routeResponse fragments ctx = Outcome.ok r) :
    r.status = 200 ∧
    (∃ extra, r.headers = ("Content-Type", "text/html") :: extra) ∧
    ∃ chunks, r.body = BodyModel.stream chunks := by
  unfold routeResponse at h
  obtain ⟨loaders, _, h⟩ := Outcome.bind_eq_ok h
  obtain ⟨headers, hm, h⟩ := Outcome.bind_eq_ok h
  obtain ⟨node, _, h⟩ := Outcome.bind_eq_ok h
  cases h
  obtain ⟨extra, hextra⟩ := mergeFragmentHeaders_prefix _ _ _ _ hm
  exact ⟨rfl, ⟨extra, hextra⟩, _, rfl⟩


/-
Claim theorems.
-/

/-- C1 (code bug): the pending suspense set is the single module-level
suspended map of suspense.tsx, shared by every response in the process;
nothing scopes an entry to the response that declared it.  Response A's
Suspense call registers entryA in the shared map, and a Resolve drain run
over that shared map — by whichever response renders Resolve next,
including a concurrent response B that declared nothing — emits response
A's patch into that response's stream.  The claim's required isolation
does not hold. -/
theorem suspense_entry_observable_across_responses :
    (Suspense "div" "<p>loading</p>" entryA []).2 = [entryA] ∧
    drain [entryA] = ([("suspense-a", "<p>A</p>")], none) := by
  refine ⟨rfl, ?_⟩
  have h1 : race [entryA] = some entryA := rfl
  rw [drain_race_resolved h1 rfl]
  have h2 : drain (removeId [entryA] entryA.id) = ([], none) := drain_race_none rfl
  rw [h2]
  rfl

/-- C2 counterexample: when the first read of the composed Renderable's
stream fails, the pump's finally block still closes the channel normally:
the emitted trace is the preamble write followed by close, with no abort
anywhere, so the client observes a falsely-complete response.  This
refutes the claim that any read or write failure aborts the channel. -/
theorem read_failure_closes_instead_of_aborting :
    startStreaming [ChunkRead.readError "render failed"] =
      [ChanOp.write "<!doctype html>", ChanOp.close] ∧
    ChanOp.abort ∉ startStreaming [ChunkRead.readError "render failed"] := by
  exact ⟨rfl, by decide⟩

/-- C2 amended: the pump closes the channel exactly once in every case —
on successful completion of the pump and on a failure reading the composed
Renderable's stream alike — and never aborts it, the close being the final
channel operation; a read failure therefore ends in a normal close (a
truncated but seemingly complete response), not in an error state. -/
theorem pump_always_closes_never_aborts (reads : List ChunkRead) :
    (startStreaming reads).count ChanOp.close = 1 ∧
    ChanOp.abort ∉ startStreaming reads ∧
    (startStreaming reads).getLast? = some ChanOp.close := by
  refine ⟨?_, ?_, ?_⟩
  · have h0 : (ChanOp.write "<!doctype html>" :: pumpWrites reads).count ChanOp.close = 0 := by
      rw [List.count_eq_zero]
      intro hmem
      cases hmem with
      | tail _ h2 =>
        obtain ⟨s, hs⟩ := pumpWrites_only_writes reads ChanOp.close h2
        cases hs
    unfold startStreaming
    rw [List.count_append, h0]
    decide
  · intro hmem
    unfold startStreaming at hmem
    rcases List.mem_append.mp hmem with hmem1 | hmem2
    · cases hmem1 with
      | tail _ h2 =>
        obtain ⟨s, hs⟩ := pumpWrites_only_writes reads ChanOp.abort h2
        cases hs
    · cases hmem2 with
      | tail _ h3 => cases h3
  · unfold startStreaming
    exact List.getLast?_concat _

/-- C3 (code bug): the Suspense component registers the content promise
with no rejection handler, so a rejected deferred computation is not
converted into an error-fallback patch: when the raced promise has
rejected, the await inside the Resolve generator throws, the drain loop
stops with that error having emitted no patch, and the sibling subtree
that resolves at time 2 is never served. -/
theorem rejected_subtree_aborts_drain :
    drain [entryBad, entryGood] = ([], some "boom") := by
  have h1 : race [entryBad, entryGood] = some entryBad := rfl
  exact drain_race_rejected h1 rfl

/-- C5: a Response instance thrown anywhere inside the try block of handle
— by a loader, an action, a component or a headers function — is returned
verbatim by the instanceof-Response arm of the catch clause: handle
returns that very response value (hence its status and headers), no
document composition result is streamed in its place, and the logging arm
is only reached for non-Response errors. -/
theorem control_response_propagates_verbatim (routes : List RouteEntry) (req : Req)
    (frags : List Fragment) (params : List (String × String)) (r : Resp)
    (hmatch : matchRoutes routes req.url = some (frags, params))
    (hthrow : attempt (if req.hasFxRequest then frags.drop 1 else frags)
        { request := req, params := params } = Outcome.thrownResp r) :
    handle routes req = r := by
  rw [handle_matched hmatch, hthrow]

/-- Witness for C5, the concrete redirect scenario: a loader that throws a
prebuilt 303 redirect to /login makes handle return exactly that response. -/
theorem control_response_witness :
    matchRoutes [throwingRoute] secretReq.url = some (throwingRoute.fragments, []) ∧
    attempt throwingRoute.fragments { request := secretReq, params := [] } =
      Outcome.thrownResp redirect303 ∧
    handle [throwingRoute] secretReq = redirect303 ∧
    redirect303.status = 303 ∧ redirect303.headers = [("Location", "/login")] :=
  ⟨rfl, rfl,
    control_response_propagates_verbatim [throwingRoute] secretReq
      throwingRoute.fragments [] redirect303 rfl rfl,
    rfl, rfl⟩

/-- C6: route matching is order-sensitive with first-match-wins: whenever
every route before r in the table fails to match the url and r matches, the
result is r's fragment chain and r's extracted parameters, whatever the
routes after r would have matched — no best-match or longest-match search
happens. -/
theorem first_match_wins (pre post : List RouteEntry) (r : RouteEntry) (url : String)
    (ps : List (String × String))
    (hpre : ∀ q ∈ pre, q.pattern url = none)
    (hmatch : r.pattern url = some ps) :
    matchRoutes (pre ++ r :: post) url = some (r.fragments, ps) := by
  induction pre with
  | nil => simp only [List.nil_append, matchRoutes, hmatch]
  | cons a t ih =>
    have ha : a.pattern url = none := hpre a (List.mem_cons_self a t)
    simp only [List.cons_append, matchRoutes, ha]
    exact ih fun q hq => hpre q (List.mem_cons_of_mem a hq)

/-- Witness for C6: a table holding an overlapping literal route and
parameter route; both match /users/me, and the earlier literal route is
selected. -/
theorem first_match_wins_witness :
    literalUsersRoute.pattern "/users/me" = some [] ∧
    paramUsersRoute.pattern "/users/me" = some [("id", "me")] ∧
    matchRoutes [literalUsersRoute, paramUsersRoute] "/users/me" =
      some (literalUsersRoute.fragments, []) :=
  ⟨rfl, rfl,
    first_match_wins [] [paramUsersRoute] literalUsersRoute "/users/me" []
      (fun q hq => absurd hq (List.not_mem_nil q)) rfl⟩

/-- C9: every successfully composed GET document response streams the
doctype preamble before any fragment content: the streamed body of
routeResponse begins with the preamble chunk, whatever the chain, the
loaders and the rendering produce. -/
theorem preamble_precedes_fragment_bytes (fragments : List Fragment) (ctx : Ctx)
    (r : Resp) (h : routeResponse fragments ctx = Outcome.ok r) :
    ∃ rest, r.body = BodyModel.stream ("<!doctype html>" :: rest) := by
  unfold routeResponse at h
  obtain ⟨loaders, _, h⟩ := Outcome.bind_eq_ok h
  obtain ⟨headers, _, h⟩ := Outcome.bind_eq_ok h
  obtain ⟨node, _, h⟩ := Outcome.bind_eq_ok h
  cases h
  refine ⟨chanWrites (pumpWrites (node.map ChunkRead.chunk) ++ [ChanOp.close]), ?_⟩
  simp [startStreaming, chanWrites]

/-- Witness for C9: the hello route's document response carries the
preamble as its first streamed chunk. -/
theorem preamble_witness :
    routeResponse [helloFragment] demoCtx = Outcome.ok helloResp ∧
    ∃ rest, helloResp.body = BodyModel.stream ("<!doctype html>" :: rest) :=
  ⟨rfl, preamble_precedes_fragment_bytes [helloFragment] demoCtx helloResp rfl⟩

/-- C10: an fx-request whose matched chain is exactly one fragment gets a
404: the slice drops the outermost (here only) fragment, the empty chain
has no leaf module, every dispatch arm fails, and the try block falls
through to the 404 response. -/
theorem fx_request_document_only_chain_404 (routes : List RouteEntry) (req : Req)
    (frags : List Fragment) (params : List (String × String))
    (hmatch : matchRoutes routes req.url = some (frags, params))
    (hfx : req.hasFxRequest = true) (hlen : frags.length = 1) :
    handle routes req = Resp404 := by
  have hdrop : frags.drop 1 = [] := by
    cases frags with
    | nil => rfl
    | cons a t =>
      cases t with
      | nil => rfl
      | cons b t2 => simp at hlen
  rw [handle_matched hmatch, hfx]
  simp [hdrop, attempt]

/-- Witness for C10: the fx-request to the document-only route yields 404. -/
theorem fx_request_witness :
    matchRoutes [docOnlyRoute] soloFxReq.url = some (docOnlyRoute.fragments, []) ∧
    soloFxReq.hasFxRequest = true ∧
    docOnlyRoute.fragments.length = 1 ∧
    handle [docOnlyRoute] soloFxReq = Resp404 :=
  ⟨rfl, rfl, rfl,
    fx_request_document_only_chain_404 [docOnlyRoute] soloFxReq
      docOnlyRoute.fragments [] rfl rfl rfl⟩


/-- C7: merged response headers are the initial collection followed by
each fragment's non-null header entries in chain order: when every headers
call returns normally, mergeFragmentHeaders yields exactly the initial
headers extended with the concatenation of the per-fragment entries, each
fragment invoked with its own loader result.  Two fragments emitting the
same header name therefore both appear, in chain order, and an earlier
value is never replaced by a later one. -/
theorem merged_headers_append_in_chain_order (ctx : Ctx)
    (pairs : List (Fragment × JSValue)) (init : List (String × String))
    (hok : ∀ fd ∈ pairs, headersCallOk ctx fd) :
    mergeFragmentHeaders init ctx pairs =
      Outcome.ok (init ++ (pairs.map (fragmentHeaderEntries ctx)).flatten) := by
  induction pairs generalizing init with
  | nil => simp [mergeFragmentHeaders]
  | cons fd rest ih =>
    obtain ⟨f, d⟩ := fd
    have htail : ∀ x ∈ rest, headersCallOk ctx x :=
      fun x hx => hok x (List.mem_cons_of_mem _ hx)
    cases hh : f.mod.headers? with
    | none =>
      simp only [mergeFragmentHeaders, hh]
      rw [ih _ htail]
      simp [fragmentHeaderEntries, hh]
    | some hf =>
      obtain ⟨hv, hcall⟩ := hok (f, d) (List.mem_cons_self _ _) hf hh
      cases hv with
      | none =>
        simp only [mergeFragmentHeaders, hh, hcall, Outcome.bind]
        rw [ih _ htail]
        simp [fragmentHeaderEntries, hh, hcall]
      | some entries =>
        simp only [mergeFragmentHeaders, hh, hcall, Outcome.bind]
        rw [ih _ htail]
        simp [fragmentHeaderEntries, hh, hcall, appendEntries, List.append_assoc]

/-- Witness for C7: two fragments both emitting a Set-Cookie value; both
values survive the merge, in chain order, after the initial content type. -/
theorem merged_headers_witness :
    (∀ fd ∈ cookiePairs, headersCallOk demoCtx fd) ∧
    mergeFragmentHeaders [("Content-Type", "text/html")] demoCtx cookiePairs =
      Outcome.ok [("Content-Type", "text/html"), ("Set-Cookie", "a=1"), ("Set-Cookie", "b=2")] := by
  have hok : ∀ fd ∈ cookiePairs, headersCallOk demoCtx fd := by
    intro fd hfd
    simp only [cookiePairs, List.mem_cons, List.not_mem_nil, or_false] at hfd
    rcases hfd with rfl | rfl <;> (intro hf hhf; cases hhf; exact ⟨_, rfl⟩)
  refine ⟨hok, ?_⟩
  rw [merged_headers_append_in_chain_order demoCtx cookiePairs
    [("Content-Type", "text/html")] hok]
  rfl

/-- C8: with every pending entry of one response resolving, and entry keys
pairwise distinct as the minted suspense uuids are, the drain loop serves
first-completed first: the emitted patch list is a permutation of the
pending set ordered by settling time (not declaration order), one patch
per pending entry, and the loop ends cleanly exactly when the pending set
is exhausted. -/
theorem suspense_patches_completion_order (pending : List SuspenseEntry)
    (hall : ∀ e ∈ pending, e.result = Settled.resolved (resolvedHtml e))
    (hnd : (pending.map SuspenseEntry.id).Nodup) :
    ∃ order : List SuspenseEntry, order.Perm pending ∧
      (order.map SuspenseEntry.time).Sorted (· ≤ ·) ∧
      (drain pending).1 = order.map (fun e => (e.id, resolvedHtml e)) ∧
      (drain pending).1.length = pending.length ∧
      (drain pending).2 = none := by
  obtain ⟨order, hperm, hsort, hp, he⟩ := drain_resolved_spec pending hall hnd
  refine ⟨order, hperm, hsort, hp, ?_, he⟩
  rw [hp, List.length_map]
  exact hperm.length_eq

/-- Witness for C8: three subtrees declared slowest-first with settling
times 30, 10 and 20 drain in the order 10, 20, 30. -/
theorem suspense_patches_witness :
    (∀ e ∈ [entrySlow, entryFast, entryMid], e.result = Settled.resolved (resolvedHtml e)) ∧
    ([entrySlow, entryFast, entryMid].map SuspenseEntry.id).Nodup ∧
    drain [entrySlow, entryFast, entryMid] =
      ([("suspense-fast", "<p>fast</p>"), ("suspense-mid", "<p>mid</p>"),
        ("suspense-slow", "<p>slow</p>")], none) ∧
    ∃ order : List SuspenseEntry, order.Perm [entrySlow, entryFast, entryMid] ∧
      (order.map SuspenseEntry.time).Sorted (· ≤ ·) ∧
      (drain [entrySlow, entryFast, entryMid]).1 =
        order.map (fun e => (e.id, resolvedHtml e)) ∧
      (drain [entrySlow, entryFast, entryMid]).1.length = 3 ∧
      (drain [entrySlow, entryFast, entryMid]).2 = none := by
  have hall : ∀ e ∈ [entrySlow, entryFast, entryMid],
      e.result = Settled.resolved (resolvedHtml e) := by decide
  have hnd : ([entrySlow, entryFast, entryMid].map SuspenseEntry.id).Nodup := by decide
  have d0 : drain ([] : List SuspenseEntry) = ([], none) := drain_race_none rfl
  have d1 : drain [entrySlow] = ([("suspense-slow", "<p>slow</p>")], none) := by
    have h : race [entrySlow] = some entrySlow := rfl
    rw [drain_race_resolved h rfl]
    have hrm : removeId [entrySlow] entrySlow.id = [] := rfl
    rw [hrm, d0]
    rfl
  have d2 : drain [entrySlow, entryMid] =
      ([("suspense-mid", "<p>mid</p>"), ("suspense-slow", "<p>slow</p>")], none) := by
    have h : race [entrySlow, entryMid] = some entryMid := rfl
    rw [drain_race_resolved h rfl]
    have hrm : removeId [entrySlow, entryMid] entryMid.id = [entrySlow] := rfl
    rw [hrm, d1]
    rfl
  have d3 : drain [entrySlow, entryFast, entryMid] =
      ([("suspense-fast", "<p>fast</p>"), ("suspense-mid", "<p>mid</p>"),
        ("suspense-slow", "<p>slow</p>")], none) := by
    have h : race [entrySlow, entryFast, entryMid] = some entryFast := rfl
    rw [drain_race_resolved h rfl]
    have hrm : removeId [entrySlow, entryFast, entryMid] entryFast.id =
        [entrySlow, entryMid] := rfl
    rw [hrm, d2]
    rfl
  exact ⟨hall, hnd, d3,
    suspense_patches_completion_order [entrySlow, entryFast, entryMid] hall hnd⟩

/-- C4 counterexample: a matched GET whose leaf has only a loader, the
loader returning undefined.  JSON.stringify(undefined) yields no JSON
text, so Response.json throws a TypeError, and the catch clause of handle
answers with the generic 500 — not the loader's value JSON-encoded
(undefined has no JSON encoding) and not a response the loader returned,
refuting the unqualified JSON-or-verbatim contract of the claim. -/
theorem undefined_loader_value_yields_500 :
    handle [undefRoute] undefReq = Resp500 ∧
    stringify JSValue.undef = none ∧
    (∀ rv, JSValue.undef ≠ JSValue.resp rv) ∧
    Resp500.status = 500 ∧ Resp500.body = BodyModel.empty := by
  exact ⟨rfl, rfl, fun rv h => JSValue.noConfusion h, rfl, rfl⟩

/-- C4 as amended: the dispatch table of handle for a matched request,
where fragments is the effective chain after the fx-request slice and
lastFrag its leaf.  A GET whose leaf module has a component streams the
composed document: handle returns it with status 200, the text/html
content type first among the merged headers, and a streamed body.  A GET
whose leaf has no component but a loader answers with the loader value:
returned verbatim when it is itself a Response, otherwise JSON-encoded
when the value has a JSON serialization; a value with none (undefined)
makes Response.json throw and handle return the generic 500.  A non-GET
with an action gets the same contract on the action value.  A non-GET
whose leaf has no action gets 404. -/
theorem handle_dispatch_table (routes : List RouteEntry) (req : Req)
    (frags fragments : List Fragment) (params : List (String × String))
    (ctx : Ctx) (lastFrag : Fragment)
    (hmatch : matchRoutes routes req.url = some (frags, params))
    (hfrags : fragments = if req.hasFxRequest then frags.drop 1 else frags)
    (hctx : ctx = { request := req, params := params })
    (hleaf : fragments.getLast? = some lastFrag) :
    (req.method = "GET" → ∀ c, lastFrag.mod.default? = some c →
      ∀ r, routeResponse fragments ctx = Outcome.ok r →
        handle routes req = r ∧ r.status = 200 ∧
        (∃ extra, r.headers = ("Content-Type", "text/html") :: extra) ∧
        ∃ chunks, r.body = BodyModel.stream chunks) ∧
    (req.method = "GET" → lastFrag.mod.default? = none →
      ∀ l, lastFrag.mod.loader? = some l → ∀ v, l ctx = Outcome.ok v →
        (∀ rv, v = JSValue.resp rv → handle routes req = rv) ∧
        ((∀ rv, v ≠ JSValue.resp rv) → ∀ s, stringify v = some s →
          handle routes req = jsonOkResponse s) ∧
        ((∀ rv, v ≠ JSValue.resp rv) → stringify v = none →
          handle routes req = Resp500)) ∧
    (req.method ≠ "GET" → ∀ a, lastFrag.mod.action? = some a →
      ∀ v, a ctx = Outcome.ok v →
        (∀ rv, v = JSValue.resp rv → handle routes req = rv) ∧
        ((∀ rv, v ≠ JSValue.resp rv) → ∀ s, stringify v = some s →
          handle routes req = jsonOkResponse s) ∧
        ((∀ rv, v ≠ JSValue.resp rv) → stringify v = none →
          handle routes req = Resp500)) ∧
    (req.method ≠ "GET" → lastFrag.mod.action? = none → handle routes req = Resp404) := by
  subst hfrags
  subst hctx
  refine ⟨?_, ?_, ?_, ?_⟩
  · intro hget c hc r hr
    have hres := routeResponse_ok_anatomy hr
    refine ⟨?_, hres.1, hres.2.1, hres.2.2⟩
    rw [handle_matched hmatch, attempt_leaf hleaf]
    have hr2 := hr
    simp only [List.drop_one] at hr2
    simp [hget, hc, hr2]
  · intro hget hc l hl v hv
    have hbase : handle routes req =
        match dataResponse l { request := req, params := params } with
        | .ok r2 => r2
        | .thrownResp r2 => r2
        | .thrownErr _ => Resp500 := by
      rw [handle_matched hmatch, attempt_leaf hleaf]
      simp [hget, hc, hl]
    refine ⟨?_, ?_, ?_⟩
    · intro rv hrv
      subst hrv
      rw [hbase]
      simp [dataResponse, hv, Outcome.bind]
    · intro hnrv s hs
      rw [hbase]
      cases v with
      | resp rv => exact absurd rfl (hnrv rv)
      | undef => simp [stringify] at hs
      | str s2 => simp [dataResponse, hv, Outcome.bind, jsonResponse, hs]
      | num n => simp [dataResponse, hv, Outcome.bind, jsonResponse, hs]
    · intro hnrv hs
      rw [hbase]
      cases v with
      | resp rv => exact absurd rfl (hnrv rv)
      | undef => simp [dataResponse, hv, Outcome.bind, jsonResponse, stringify]
      | str s2 => simp [stringify] at hs
      | num n => simp [stringify] at hs
  · intro hget a ha v hv
    have hbase : handle routes req =
        match dataResponse a { request := req, params := params } with
        | .ok r2 => r2
        | .thrownResp r2 => r2
        | .thrownErr _ => Resp500 := by
      rw [handle_matched hmatch, attempt_leaf hleaf]
      simp [hget, ha]
    refine ⟨?_, ?_, ?_⟩
    · intro rv hrv
      subst hrv
      rw [hbase]
      simp [dataResponse, hv, Outcome.bind]
    · intro hnrv s hs
      rw [hbase]
      cases v with
      | resp rv => exact absurd rfl (hnrv rv)
      | undef => simp [stringify] at hs
      | str s2 => simp [dataResponse, hv, Outcome.bind, jsonResponse, hs]
      | num n => simp [dataResponse, hv, Outcome.bind, jsonResponse, hs]
    · intro hnrv hs
      rw [hbase]
      cases v with
      | resp rv => exact absurd rfl (hnrv rv)
      | undef => simp [dataResponse, hv, Outcome.bind, jsonResponse, stringify]
      | str s2 => simp [stringify] at hs
      | num n => simp [stringify] at hs
  · intro hget hc
    rw [handle_matched hmatch, attempt_leaf hleaf]
    simp [hget, hc]

/-- Witness for C4, the loader-only GET branch: a matched GET whose leaf
has only a loader returning the string hello answers with the value
JSON-encoded. -/
theorem handle_dispatch_witness :
    matchRoutes [apiRoute] apiReq.url = some (apiRoute.fragments, []) ∧
    apiRoute.fragments.getLast? = some { id := "api", mod := loaderOnlyMod } ∧
    stringify (JSValue.str "hello") = some "\"hello\"" ∧
    handle [apiRoute] apiReq = jsonOkResponse "\"hello\"" ∧
    (jsonOkResponse "\"hello\"").body = BodyModel.jsonText "\"hello\"" := by
  refine ⟨rfl, rfl, rfl, ?_, rfl⟩
  have h := handle_dispatch_table [apiRoute] apiReq apiRoute.fragments
      apiRoute.fragments [] { request := apiReq, params := [] }
      { id := "api", mod := loaderOnlyMod } rfl rfl rfl rfl
  exact (h.2.1 rfl rfl _ rfl (JSValue.str "hello") rfl).2.1
    (fun rv hrv => JSValue.noConfusion hrv) "\"hello\"" rfl

end Squarehole
